import Mathlib

/-!
Verification of the `bh_tsne` Python wrapper (`src/ml-libs/fast_tsne.py`).

The wrapper centers the input matrix, projects it with a PCA-style step,
serialises the projected samples plus the embedding parameters into a binary
file (`struct.pack`), runs the external `bh_tsne` engine in a scoped temporary
directory, and decodes the binary result stream of the engine, reordering the
result vectors by their landmark indices.

Modelling conventions:
* The binary streams are modelled at field granularity: every `pack`/`unpack`
  of a single int32 or float64 is one `Tok`.  Field widths (4 and 8 bytes) are
  kept so that offsets and padding of `struct` formats can be computed.
* float64 payloads are modelled as rationals; the wrapper only copies them and
  compares them with the IEEE order, which agrees with the rational order on
  the (finite, non-NaN) values the claims quantify over.
* `numpy.linalg.eig` is an external numeric routine; its output (eigenvalues
  and the matrix whose columns are eigenvectors) is passed to the model as an
  oracle argument.
* The Python list sort is a stable sort; it is modelled by `List.insertionSort`
  (also stable).  Wherever a theorem depends on the result of the sort, the
  comparison relation is antisymmetric on the values involved, so every
  stable sort produces the same list.
* The generator is modelled as run to exhaustion: the yielded vectors are
  collected in order, and an exception before the first yield gives `.error`.
-/

set_option maxRecDepth 16384

namespace FastTsne

/-- One scalar field of a binary stream: a packed int32 or float64. -/
inductive Tok where
  | i32 (v : Int)
  | f64 (v : ℚ)
deriving DecidableEq

/-- Width in bytes of one packed field. -/
def Tok.width : Tok → Nat
  | .i32 _ => 4
  | .f64 _ => 8

/-- Field kinds of a `struct` format string: `i` (int32) and `d` (float64). -/
inductive FmtField where
  | fint
  | fdouble
deriving DecidableEq

/-- Packed size of a format field. -/
def FmtField.bytes : FmtField → Nat
  | .fint => 4
  | .fdouble => 8

/-- Native alignment requirement of a format field (matches x86-64). -/
def FmtField.alignment : FmtField → Nat
  | .fint => 4
  | .fdouble => 8

/-- Round `off` up to the next multiple of `a`. -/
def alignTo (off a : Nat) : Nat := ((off + a - 1) / a) * a

/-- Model of struct.calcsize in native mode: each field is placed at the
next offset aligned for it; no trailing padding is added. -/
def calcsizeNative (fs : List FmtField) : Nat :=
  fs.foldl (fun off f => alignTo off f.alignment + f.bytes) 0

/-- Sum of the raw field widths, i.e. the size of a padding-free layout. -/
def packedSize (fs : List FmtField) : Nat := (fs.map FmtField.bytes).sum

/-- The format of the input header: two int32, two float64, one int32. -/
def headerFmt : List FmtField := [.fint, .fint, .fdouble, .fdouble, .fint]

/-! ### Matrix operations (the numpy calls used by the wrapper) -/

/-- Number of columns of a row-major matrix (length of its first row). -/
def numCols (A : List (List ℚ)) : Nat := (A.headD []).length

/-- Column `j` of a row-major matrix (`A[:, j]`). -/
def getCol (A : List (List ℚ)) (j : Nat) : List ℚ :=
  A.map (fun r => r.getD j 0)

/-- Dot product of two equal-length vectors. -/
def dotProd (a b : List ℚ) : ℚ := (List.zipWith (· * ·) a b).sum

/-- Matrix product (np.dot) on row-major matrices: entry (n, j) is the dot
product of row n with column j. -/
def matMul (A B : List (List ℚ)) : List (List ℚ) :=
  A.map (fun row => (List.range (numCols B)).map (fun j => dotProd row (getCol B j)))

/-- Transpose (np.transpose) of a row-major matrix. -/
def transposeM (A : List (List ℚ)) : List (List ℚ) :=
  (List.range (numCols A)).map (fun j => getCol A j)

/-- Per-column means, np.mean along axis 0. -/
def colMean (X : List (List ℚ)) : List ℚ :=
  (List.range (numCols X)).map (fun j => (getCol X j).sum / (X.length : ℚ))

/-- Centering: subtract the per-column means from every row (the in-place
subtraction on line 107). -/
def center (X : List (List ℚ)) : List (List ℚ) :=
  X.map (fun row => List.zipWith (· - ·) row (colMean X))

/-! ### The PCA-style projection step (lines 107–121) -/

/-- Descending comparison on eigen pairs used by
`ev_list.sort(key=lambda tup: tup[0], reverse=True)`. -/
def eigDescR (a b : ℚ × List ℚ) : Prop := b.1 ≤ a.1

instance : DecidableRel eigDescR := fun a b =>
  inferInstanceAs (Decidable (b.1 ≤ a.1))

/-- Lines 112–115: zip the eigenvalues with the ROWS of the eigenvector
matrix, sort the pairs by descending eigenvalue (stable), and reassemble the
rows in that order.  (`zip(eig_val, eig_vec)` iterates the 2-D array
`eig_vec` row by row, not column by column.) -/
def sortEig (eig_val : List ℚ) (eig_vec : List (List ℚ)) : List (List ℚ) :=
  (List.insertionSort eigDescR (List.zip eig_val eig_vec)).map Prod.snd

/-- Lines 107–121: center the input, reorder the eigenvector matrix by
descending eigenvalue (as the code actually does, i.e. on rows), clamp
`initial_dims` to the number of rows, keep the first `initial_dims` columns
and project.  `eig_val`/`eig_vec` stand for the output of
`np.linalg.eig(cov_x)`. -/
def pcaStage (X : List (List ℚ)) (initial_dims : Nat)
    (eig_val : List ℚ) (eig_vec : List (List ℚ)) : List (List ℚ) :=
  let Xc := center X
  let rows := sortEig eig_val eig_vec
  let k := if initial_dims > rows.length then rows.length else initial_dims
  let proj := rows.map (fun r => r.take k)
  matMul Xc proj

/-- Modelled from the spec (§4.1), for comparison with `pcaStage`: sort the
eigenvector COLUMNS by descending eigenvalue and project onto the first
`initial_dims` of them, so each retained direction is the eigenvector paired
with its own eigenvalue. -/
def pcaStageSpec (X : List (List ℚ)) (initial_dims : Nat)
    (eig_val : List ℚ) (eig_vec : List (List ℚ)) : List (List ℚ) :=
  let Xc := center X
  let cols := sortEig eig_val (transposeM eig_vec)
  let d := cols.length
  let k := if initial_dims > d then d else initial_dims
  matMul Xc (transposeM (cols.take k))

/-! ### Binary protocol encoder (lines 123–135) -/

/-- Line 67: the default seed value, used as a sentinel. -/
def EMPTY_SEED : Int := 1

/-- Lines 123–135: the token stream written to the data file: the iiddi
header of sample_count, sample_dim, theta, perplexity and no_dims, then one
record of per-row-length float64 per sample in input order, then a single
int32 seed record iff the seed differs from EMPTY_SEED. -/
def encodeStream (X : List (List ℚ)) (theta perplexity : ℚ)
    (no_dims rand_seed : Int) : List Tok :=
  let sample_dim : Int := ((X.headD []).length : Int)
  let sample_count : Int := (X.length : Int)
  [Tok.i32 sample_count, Tok.i32 sample_dim, Tok.f64 theta,
    Tok.f64 perplexity, Tok.i32 no_dims]
  ++ (X.map (fun s => s.map Tok.f64)).flatten
  ++ (if rand_seed ≠ EMPTY_SEED then [Tok.i32 rand_seed] else [])

/-! ### Binary protocol decoder + reorder (lines 150–162) -/

/-- Consume one int32 field, an unpack of format i. -/
def readInt : List Tok → Option (Int × List Tok)
  | Tok.i32 v :: rest => some (v, rest)
  | _ => none

/-- Consume one float64 field, an unpack of format d. -/
def readFloat : List Tok → Option (ℚ × List Tok)
  | Tok.f64 v :: rest => some (v, rest)
  | _ => none

/-- Consume n float64 fields, an unpack of an n-fold d format. -/
def readFloats : Nat → List Tok → Option (List ℚ × List Tok)
  | 0, s => some ([], s)
  | n + 1, s => do
    let (v, s) ← readFloat s
    let (vs, s) ← readFloats n s
    return (v :: vs, s)

/-- The comprehension reading `result_samples` records of `result_dims`
float64 each. -/
def readVecs : Nat → Nat → List Tok → Option (List (List ℚ) × List Tok)
  | 0, _, s => some ([], s)
  | n + 1, k, s => do
    let (v, s) ← readFloats k s
    let (vs, s) ← readVecs n k s
    return (v :: vs, s)

/-- The comprehension reading one int32 landmark per collected record. -/
def readInts : Nat → List Tok → Option (List Int × List Tok)
  | 0, s => some ([], s)
  | n + 1, s => do
    let (v, s) ← readInt s
    let (vs, s) ← readInts n s
    return (v :: vs, s)

/-- Python comparison of float tuples (read lexicographically; a strict
prefix is smaller). -/
def pyTupLe : List ℚ → List ℚ → Bool
  | [], _ => true
  | _ :: _, [] => false
  | a :: as, b :: bs => if a < b then true else if b < a then false else pyTupLe as bs

/-- Python comparison of the pairs `((landmark,), vector)` built on line 158:
first by the landmark int, ties by the float tuple. -/
def pairLe (x y : Int × List ℚ) : Bool :=
  if x.1 < y.1 then true else if y.1 < x.1 then false else pyTupLe x.2 y.2

/-- Relation form of pairLe, for List.insertionSort and List.Sorted. -/
def pairR (x y : Int × List ℚ) : Prop := pairLe x y = true

instance : DecidableRel pairR := fun x y =>
  inferInstanceAs (Decidable (pairLe x y = true))

/-- Lines 150–162: read the result header `(result_samples, result_dims)`,
then `result_samples` vector records, then one landmark int32 per record;
pair each vector with its landmark, sort the pairs (`results.sort()`), and
yield the vectors in that order.  The trailing cost record is left unread.
`none` models a `struct.error` from a short or misframed stream. -/
def decodeResult (s : List Tok) : Option (List (List ℚ)) := do
  let (result_samples, s) ← readInt s
  let (result_dims, s) ← readInt s
  let (vecs, s) ← readVecs result_samples.toNat result_dims.toNat s
  let (lms, _) ← readInts result_samples.toNat s
  let results := List.zip lms vecs
  let sorted := List.insertionSort pairR results
  return sorted.map Prod.snd

/-! ### Engine invocation and the pipeline driver (lines 87–96, 126–162) -/

/-- Lines 144–147: the assertion message for a non-zero engine exit. -/
def assertMsg (verbose : Bool) : String :=
  "ERROR: Call to bh_tsne exited with a non-zero return code exit status, please "
  ++ (if !verbose then "enable verbose mode and " else "")
  ++ "refer to the bh_tsne output for further details"

/-- Whether a message suggests enabling verbose mode. -/
def mentionsVerbose (s : String) : Prop :=
  "enable verbose mode".data <:+: s.data

instance (s : String) : Decidable (mentionsVerbose s) :=
  inferInstanceAs (Decidable ("enable verbose mode".data <:+: s.data))

/-- The observable behaviour of one run of the external engine: its exit
status and the token stream it leaves in `result.dat`. -/
structure Engine where
  returncode : Int
  result : List Tok

/-- State of the scoped working directory. -/
structure FS where
  tmpExists : Bool
  everCreated : Bool
deriving DecidableEq

/-- Model of TmpDir enter (lines 91–93): mkdtemp creates the directory. -/
def tmpEnter (_ : FS) : FS := { tmpExists := true, everCreated := true }

/-- Model of TmpDir exit (lines 95–96): an unconditional rmtree. -/
def tmpExit (fs : FS) : FS := { fs with tmpExists := false }

/-- Errors the wrapper can raise. -/
inductive Err where
  | inputError
  | engineFailed (msg : String)
  | protocolError
deriving DecidableEq

/-- The `with TmpDir() as ...:` block: enter, run the body, and run
`__exit__` whether the body returned or raised. -/
def withTmpDir {α : Type} (fs : FS) (body : FS → Except Err α × FS) :
    Except Err α × FS :=
  let fs1 := tmpEnter fs
  let (r, fs2) := body fs1
  (r, tmpExit fs2)

/-- Everything observable about one call of `fast_tsne`. -/
structure RunResult where
  out : Except Err (List (List ℚ))
  callerX : List (List ℚ)
  dataFile : List Tok
  fs : FS

/-- Lines 103–162, `fast_tsne` run to exhaustion.  `eig_val`/`eig_vec` are
the oracle output of `np.linalg.eig` on the covariance matrix and `engine`
is the observable behaviour of the `bh_tsne` subprocess.  `callerX` is the
content of the array object of the caller after the call: the in-place
`X -= np.mean(X, axis=0)` on line 107 is the only statement mutating it
(line 121 rebinds the local name only).  An empty input fails inside numpy
on line 107 before the temporary directory exists; this is modelled as
`inputError`. -/
def fastTsne (X : List (List ℚ)) (initial_dims : Nat) (no_dims : Int)
    (perplexity theta : ℚ) (rand_seed : Int) (verbose : Bool)
    (eig_val : List ℚ) (eig_vec : List (List ℚ)) (engine : Engine) :
    RunResult :=
  if X = [] then
    ⟨Except.error Err.inputError, X, [], ⟨false, false⟩⟩
  else
    let Xc := center X
    let Xr := pcaStage X initial_dims eig_val eig_vec
    let dataFile := encodeStream Xr theta perplexity no_dims rand_seed
    let (res, fs) := withTmpDir ⟨false, false⟩ (fun fs =>
      (if engine.returncode ≠ 0 then
        Except.error (Err.engineFailed (assertMsg verbose))
      else
        match decodeResult engine.result with
        | none => Except.error Err.protocolError
        | some out => Except.ok out, fs))
    ⟨res, Xc, dataFile, fs⟩

/-- The Result stream layout of spec §3: a `(result_count, result_dims)`
header, `result_count` vector records, `result_count` landmark int32s, and
then arbitrary trailing fields (e.g. the ignored cost record). -/
def mkResultStream (n k : Nat) (vecs : List (List ℚ)) (lms : List Int)
    (extra : List Tok) : List Tok :=
  [Tok.i32 (n : Int), Tok.i32 (k : Int)]
  ++ (vecs.map (fun v => v.map Tok.f64)).flatten
  ++ lms.map Tok.i32
  ++ extra

end FastTsne

namespace FastTsne

/-! ### The pair comparison is a total preorder, antisymmetric -/

theorem pyTupLe_total : ∀ a b : List ℚ, pyTupLe a b = true ∨ pyTupLe b a = true
  | [], _ => Or.inl rfl
  | _ :: _, [] => Or.inr rfl
  | a :: as, b :: bs => by
    rcases lt_trichotomy a b with hab | rfl | hba
    · exact Or.inl (by simp [pyTupLe, hab])
    · rcases pyTupLe_total as bs with ih | ih
      · exact Or.inl (by simp [pyTupLe, lt_irrefl, ih])
      · exact Or.inr (by simp [pyTupLe, lt_irrefl, ih])
    · exact Or.inr (by simp [pyTupLe, hba])

theorem pyTupLe_trans : ∀ a b c : List ℚ,
    pyTupLe a b = true → pyTupLe b c = true → pyTupLe a c = true
  | [], _, _, _, _ => rfl
  | _ :: _, [], _, h, _ => by simp [pyTupLe] at h
  | _ :: _, _ :: _, [], _, h => by simp [pyTupLe] at h
  | a :: as, b :: bs, c :: cs, h1, h2 => by
    rcases lt_trichotomy a b with hab | rfl | hba
    · rcases lt_trichotomy b c with hbc | rfl | hcb
      · simp [pyTupLe, lt_trans hab hbc]
      · simp [pyTupLe, hab]
      · simp [pyTupLe, asymm hcb, hcb] at h2
    · simp only [pyTupLe, lt_irrefl, if_false] at h1
      rcases lt_trichotomy a c with hac | rfl | hca
      · simp [pyTupLe, hac]
      · simp only [pyTupLe, lt_irrefl, if_false] at h2 ⊢
        exact pyTupLe_trans as bs cs h1 h2
      · simp [pyTupLe, asymm hca, hca] at h2
    · simp [pyTupLe, asymm hba, hba] at h1

theorem pyTupLe_antisymm : ∀ a b : List ℚ,
    pyTupLe a b = true → pyTupLe b a = true → a = b
  | [], [], _, _ => rfl
  | [], _ :: _, _, h => by simp [pyTupLe] at h
  | _ :: _, [], h, _ => by simp [pyTupLe] at h
  | a :: as, b :: bs, h1, h2 => by
    rcases lt_trichotomy a b with hab | rfl | hba
    · simp [pyTupLe, asymm hab, hab] at h2
    · simp only [pyTupLe, lt_irrefl, if_false] at h1 h2
      rw [pyTupLe_antisymm as bs h1 h2]
    · simp [pyTupLe, asymm hba, hba] at h1

theorem pairR_total (x y : Int × List ℚ) : pairR x y ∨ pairR y x := by
  unfold pairR pairLe
  rcases lt_trichotomy x.1 y.1 with h | h | h
  · exact Or.inl (by simp [h])
  · rcases pyTupLe_total x.2 y.2 with ih | ih
    · exact Or.inl (by simp [h, lt_irrefl, ih])
    · exact Or.inr (by simp [h, lt_irrefl, ih])
  · exact Or.inr (by simp [h])

theorem pairR_trans (x y z : Int × List ℚ) :
    pairR x y → pairR y z → pairR x z := by
  unfold pairR pairLe
  intro h1 h2
  rcases lt_trichotomy x.1 y.1 with hab | hab | hab
  · rcases lt_trichotomy y.1 z.1 with hbc | hbc | hbc
    · simp [lt_trans hab hbc]
    · simp [hbc ▸ hab]
    · simp [asymm hbc, hbc] at h2
  · rcases lt_trichotomy x.1 z.1 with hac | hac | hac
    · simp [hac]
    · simp only [hab, lt_irrefl, if_false] at h1
      rw [← hab, ← hac] at h2
      simp only [lt_irrefl, if_false] at h2
      simp only [hac, lt_irrefl, if_false]
      exact pyTupLe_trans _ _ _ h1 h2
    · rw [← hab] at h2
      simp [asymm hac, hac] at h2
  · simp [asymm hab, hab] at h1

theorem pairR_antisymm (x y : Int × List ℚ) :
    pairR x y → pairR y x → x = y := by
  unfold pairR pairLe
  intro h1 h2
  rcases lt_trichotomy x.1 y.1 with hab | hab | hba
  · simp [asymm hab, hab] at h2
  · simp only [hab, lt_irrefl, if_false] at h1 h2
    exact Prod.ext hab (pyTupLe_antisymm _ _ h1 h2)
  · simp [asymm hba, hba] at h1

instance : IsTotal (Int × List ℚ) pairR := ⟨pairR_total⟩

instance : IsTrans (Int × List ℚ) pairR := ⟨pairR_trans⟩

instance : IsAntisymm (Int × List ℚ) pairR := ⟨pairR_antisymm⟩

end FastTsne

namespace FastTsne

/-! ### Parsing lemmas for well-formed result streams -/

theorem readFloats_append (v : List ℚ) (rest : List Tok) :
    readFloats v.length (v.map Tok.f64 ++ rest) = some (v, rest) := by
  induction v with
  | nil => rfl
  | cons a as ih => simp [readFloats, readFloat, ih]

theorem readVecs_append (vs : List (List ℚ)) (k : Nat) (rest : List Tok)
    (h : ∀ v ∈ vs, v.length = k) :
    readVecs vs.length k ((vs.map (fun v => v.map Tok.f64)).flatten ++ rest)
      = some (vs, rest) := by
  induction vs with
  | nil => rfl
  | cons v vs ih =>
    have hv : v.length = k := h v (by simp)
    have ih' := ih (fun w hw => h w (by simp [hw]))
    simp only [List.map_cons, List.flatten_cons, List.length_cons,
      List.append_assoc]
    rw [readVecs, ← hv, readFloats_append, hv]
    simp [ih']

theorem readInts_append (ls : List Int) (rest : List Tok) :
    readInts ls.length (ls.map Tok.i32 ++ rest) = some (ls, rest) := by
  induction ls with
  | nil => rfl
  | cons a as ih => simp [readInts, readInt, ih]

/-- On a stream framed per the Result layout, the decoder succeeds and
returns the vectors ordered by the stable sort of their `(landmark, vector)`
pairs. -/
theorem decodeResult_mk (n k : Nat) (vecs : List (List ℚ)) (lms : List Int)
    (extra : List Tok) (hv : vecs.length = n) (hl : lms.length = n)
    (hk : ∀ v ∈ vecs, v.length = k) :
    decodeResult (mkResultStream n k vecs lms extra) =
      some ((List.insertionSort pairR (List.zip lms vecs)).map Prod.snd) := by
  unfold decodeResult mkResultStream
  simp only [List.cons_append, List.nil_append, List.append_assoc, readInt,
    Option.bind_eq_bind, Option.some_bind, Int.toNat_natCast]
  rw [← hv, readVecs_append vecs k (List.map Tok.i32 lms ++ extra) hk]
  simp only [Option.some_bind]
  rw [hv, ← hl, readInts_append]
  rfl

end FastTsne

namespace FastTsne


/-- The canonical pairing `(0, w 0), (1, w 1), …` is sorted for `pairR`. -/
theorem canon_sorted (n : Nat) (w : Nat → List ℚ) :
    List.Sorted pairR ((List.range n).map (fun (i : Nat) => ((i : Int), w i))) := by
  rw [List.Sorted, List.pairwise_map]
  refine (List.pairwise_lt_range n).imp (fun {i j} h => ?_)
  have hij : (i : Int) < (j : Int) := by exact_mod_cast h
  simp [pairR, pairLe, hij]

/-- C1: for every result stream whose header declares `n` vectors of `k`
float64 values each, followed by `n` landmark int32s, such that the
`(landmark, vector)` pairs — in whatever emission order, e.g. fully
reversed — are a permutation of the canonical pairing of each original
input index `i` with its vector `w i`, the decoder pairs each vector with
its landmark, sorts by landmark ascending, and yields `w 0, …, w (n-1)`:
the vectors in original input order. -/
theorem decoder_restores_input_order (n k : Nat) (vecs : List (List ℚ))
    (lms : List Int) (w : Nat → List ℚ) (extra : List Tok)
    (hv : vecs.length = n) (hl : lms.length = n)
    (hk : ∀ v ∈ vecs, v.length = k)
    (hperm : List.Perm (List.zip lms vecs)
      ((List.range n).map (fun (i : Nat) => ((i : Int), w i)))) :
    decodeResult (mkResultStream n k vecs lms extra) =
      some ((List.range n).map w) := by
  rw [decodeResult_mk n k vecs lms extra hv hl hk]
  have hperm2 : List.Perm (List.insertionSort pairR (List.zip lms vecs))
      ((List.range n).map (fun (i : Nat) => ((i : Int), w i))) :=
    (List.perm_insertionSort pairR _).trans hperm
  rw [List.eq_of_perm_of_sorted hperm2 (List.sorted_insertionSort pairR _)
    (canon_sorted n w)]
  simp [List.map_map, Function.comp]

/-- Witness for C1: a stream emitted in fully reversed order is restored to
input order. -/
theorem decoder_restores_input_order_witness :
    decodeResult (mkResultStream 2 1 [[(7 : ℚ)], [(5 : ℚ)]] [1, 0] []) =
      some [[(5 : ℚ)], [(7 : ℚ)]] := by
  have h := decoder_restores_input_order 2 1 [[(7 : ℚ)], [(5 : ℚ)]] [1, 0]
    (fun i => if i = 0 then [(5 : ℚ)] else [(7 : ℚ)]) []
    (by decide) (by decide) (by decide) (by decide)
  rw [h]
  rw [show (List.range 2).map
        (fun (i : Nat) => if i = 0 then [(5 : ℚ)] else [(7 : ℚ)])
      = [[(5 : ℚ)], [(7 : ℚ)]] from by decide]

/-- C10: a well-formed result stream is decoded without any validation of
the landmark values: even with duplicate or out-of-range landmarks no error
is raised, all declared vectors are yielded, and the output lists the
vectors in the order of the stable sort of the `(landmark, vector)` pairs —
so vectors sharing a landmark are adjacent, ordered between themselves by
the lexicographic comparison `pyTupLe` of their coordinates. -/
theorem decoder_accepts_duplicate_landmarks (n k : Nat)
    (vecs : List (List ℚ)) (lms : List Int) (extra : List Tok)
    (hv : vecs.length = n) (hl : lms.length = n)
    (hk : ∀ v ∈ vecs, v.length = k) :
    ∃ sorted : List (Int × List ℚ),
      List.Perm sorted (List.zip lms vecs) ∧
      List.Sorted pairR sorted ∧
      decodeResult (mkResultStream n k vecs lms extra)
        = some (sorted.map Prod.snd) ∧
      (sorted.map Prod.snd).length = n := by
  refine ⟨List.insertionSort pairR (List.zip lms vecs),
    List.perm_insertionSort pairR _, List.sorted_insertionSort pairR _,
    decodeResult_mk n k vecs lms extra hv hl hk, ?_⟩
  rw [List.length_map, (List.perm_insertionSort pairR _).length_eq,
    List.length_zip, hv, hl, min_self]

/-- Witness for C10: landmarks `[9, 9, 3]` (duplicated and out of range for
a 3-sample input) raise no error; the two vectors tagged `9` come out
adjacent, ordered by their coordinates. -/
theorem decoder_accepts_duplicate_landmarks_witness :
    ∃ sorted : List (Int × List ℚ),
      List.Perm sorted (List.zip [9, 9, 3] [[(2 : ℚ)], [(1 : ℚ)], [(4 : ℚ)]]) ∧
      List.Sorted pairR sorted ∧
      decodeResult (mkResultStream 3 1 [[(2 : ℚ)], [(1 : ℚ)], [(4 : ℚ)]]
        [9, 9, 3] []) = some (sorted.map Prod.snd) ∧
      (sorted.map Prod.snd).length = 3 :=
  decoder_accepts_duplicate_landmarks 3 1 [[(2 : ℚ)], [(1 : ℚ)], [(4 : ℚ)]]
    [9, 9, 3] [] (by decide) (by decide) (by decide)

end FastTsne

namespace FastTsne

/-- Unfolding of pcaStage with its local bindings expanded. -/
theorem pcaStage_eq (X : List (List ℚ)) (initial_dims : Nat)
    (eig_val : List ℚ) (eig_vec : List (List ℚ)) :
    pcaStage X initial_dims eig_val eig_vec =
      matMul (center X) ((sortEig eig_val eig_vec).map
        (fun r => r.take (if initial_dims > (sortEig eig_val eig_vec).length
          then (sortEig eig_val eig_vec).length else initial_dims))) := rfl

theorem sortEig_length (eig_val : List ℚ) (eig_vec : List (List ℚ)) :
    (sortEig eig_val eig_vec).length = min eig_val.length eig_vec.length := by
  unfold sortEig
  rw [List.length_map, (List.perm_insertionSort eigDescR _).length_eq,
    List.length_zip]

theorem sortEig_mem {eig_val : List ℚ} {eig_vec : List (List ℚ)}
    {r : List ℚ} (h : r ∈ sortEig eig_val eig_vec) : r ∈ eig_vec := by
  unfold sortEig at h
  rcases List.mem_map.mp h with ⟨p, hp, rfl⟩
  exact (List.of_mem_zip
    ((List.perm_insertionSort eigDescR _).mem_iff.mp hp)).2

/-- C7: when the requested `initial_dims` exceeds the input dimension `d`
(the size of the eigendecomposition of the `d × d` covariance matrix), the
preprocessor silently clamps it: it computes exactly what `initial_dims = d`
computes, raises no error, and every output row has `d` columns. -/
theorem initial_dims_clamped (X : List (List ℚ)) (K d : Nat)
    (eig_val : List ℚ) (eig_vec : List (List ℚ))
    (hval : eig_val.length = d) (hvec : eig_vec.length = d)
    (hrows : ∀ r ∈ eig_vec, r.length = d) (hd : 1 ≤ d) (hK : d < K) :
    pcaStage X K eig_val eig_vec = pcaStage X d eig_val eig_vec ∧
    ∀ row ∈ pcaStage X d eig_val eig_vec, row.length = d := by
  have hlen : (sortEig eig_val eig_vec).length = d := by
    rw [sortEig_length, hval, hvec, min_self]
  have hclamp : pcaStage X K eig_val eig_vec = pcaStage X d eig_val eig_vec := by
    rw [pcaStage_eq, pcaStage_eq, hlen, if_pos hK, if_neg (lt_irrefl d)]
  refine ⟨hclamp, ?_⟩
  intro row hrow
  obtain ⟨h0, t, he⟩ : ∃ h0 t, sortEig eig_val eig_vec = h0 :: t := by
    cases hE : sortEig eig_val eig_vec with
    | nil => rw [hE] at hlen; simp at hlen; omega
    | cons h0 t => exact ⟨h0, t, rfl⟩
  have h0len : h0.length = d := hrows h0 (sortEig_mem (by rw [he]; simp))
  rw [pcaStage_eq, hlen, if_neg (lt_irrefl d)] at hrow
  unfold matMul at hrow
  rcases List.mem_map.mp hrow with ⟨src, _, rfl⟩
  rw [List.length_map, List.length_range, he]
  simp [numCols, h0len]

/-- Witness for C7: a 2-column input with `initial_dims = 5` behaves as
`initial_dims = 2` and keeps 2 columns. -/
theorem initial_dims_clamped_witness :
    pcaStage [[(1 : ℚ), 2], [3, 4]] 5 [1, 0] [[1, 0], [0, 1]] =
      pcaStage [[(1 : ℚ), 2], [3, 4]] 2 [1, 0] [[1, 0], [0, 1]] ∧
    ∀ row ∈ pcaStage [[(1 : ℚ), 2], [3, 4]] 2 [1, 0] [[1, 0], [0, 1]],
      row.length = 2 :=
  initial_dims_clamped [[(1 : ℚ), 2], [3, 4]] 5 2 [1, 0] [[1, 0], [0, 1]]
    (by decide) (by decide) (by decide) (by decide) (by decide)

/-- C4: the code zips the eigenvalues with the ROWS of the eigenvector
matrix (line 112), so the projection it builds is not made of eigenvector
columns.  Concretely: for the centered input `[[1,0],[0,1],[-1,-1]]` the
covariance is `[[2,1],[1,2]]`; the eig oracle returns eigenvalues `[1, 3]`
with eigenvector columns `(1,-1)` (for 1) and `(1,1)` (for 3) — i.e. the
matrix `[[1,1],[-1,1]]`.  With `initial_dims = 1` the code retains the
direction `(-1,1)`, an eigenvector of eigenvalue 1, not of the leading
eigenvalue 3, and its output differs from the column-sorted projection of
spec §4.1 (`pcaStageSpec`). -/
theorem pca_retained_direction_not_eigenvector :
    center [[(1 : ℚ), 0], [0, 1], [-1, -1]] =
      [[(1 : ℚ), 0], [0, 1], [-1, -1]] ∧
    matMul (transposeM [[(1 : ℚ), 0], [0, 1], [-1, -1]])
      [[(1 : ℚ), 0], [0, 1], [-1, -1]] = [[2, 1], [1, 2]] ∧
    matMul [[(2 : ℚ), 1], [1, 2]] [[1], [-1]] = [[1 * 1], [1 * -1]] ∧
    matMul [[(2 : ℚ), 1], [1, 2]] [[1], [1]] = [[3 * 1], [3 * 1]] ∧
    pcaStage [[(1 : ℚ), 0], [0, 1], [-1, -1]] 1 [1, 3] [[1, 1], [-1, 1]] =
      [[-1], [1], [0]] ∧
    pcaStageSpec [[(1 : ℚ), 0], [0, 1], [-1, -1]] 1 [1, 3] [[1, 1], [-1, 1]] =
      [[1], [1], [-2]] ∧
    pcaStage [[(1 : ℚ), 0], [0, 1], [-1, -1]] 1 [1, 3] [[1, 1], [-1, 1]] ≠
      pcaStageSpec [[(1 : ℚ), 0], [0, 1], [-1, -1]] 1 [1, 3] [[1, 1], [-1, 1]] ∧
    matMul [[(2 : ℚ), 1], [1, 2]] [[-1], [1]] = [[1 * -1], [1 * 1]] ∧
    matMul [[(2 : ℚ), 1], [1, 2]] [[-1], [1]] ≠ [[3 * -1], [3 * 1]] := by
  have h5 : pcaStage [[(1 : ℚ), 0], [0, 1], [-1, -1]] 1 [1, 3]
      [[1, 1], [-1, 1]] = [[-1], [1], [0]] := by
    norm_num [pcaStage, center, colMean, getCol, numCols, matMul, sortEig,
      eigDescR, dotProd, List.range_succ]
  have h6 : pcaStageSpec [[(1 : ℚ), 0], [0, 1], [-1, -1]] 1 [1, 3]
      [[1, 1], [-1, 1]] = [[1], [1], [-2]] := by
    norm_num [pcaStageSpec, center, colMean, getCol, numCols, matMul,
      transposeM, sortEig, eigDescR, dotProd, List.range_succ]
  refine ⟨by norm_num [center, colMean, getCol, numCols, List.range_succ],
    by norm_num [matMul, transposeM, getCol, numCols, dotProd, List.range_succ],
    by norm_num [matMul, getCol, numCols, dotProd, List.range_succ],
    by norm_num [matMul, getCol, numCols, dotProd, List.range_succ],
    h5, h6, by rw [h5, h6]; norm_num,
    by norm_num [matMul, getCol, numCols, dotProd, List.range_succ],
    by norm_num [matMul, getCol, numCols, dotProd, List.range_succ]⟩

end FastTsne

namespace FastTsne

/-- C2: for a nonempty rectangular `N × k` preprocessed matrix, the encoder
emits exactly the header record `(sample_count = N, sample_dim = k, theta,
perplexity, output_dims)` in the iiddi layout — which native struct
packing lays out with no padding (its `calcsize` equals the raw sum of the
field widths, 28 bytes) — followed immediately by the `N` data records of
`k` float64 values each, one record per sample in input order (and then the
optional seed record). -/
theorem encoder_layout (X : List (List ℚ)) (k : Nat) (theta perplexity : ℚ)
    (no_dims rand_seed : Int) (hX : X ≠ []) (hk : ∀ r ∈ X, r.length = k) :
    encodeStream X theta perplexity no_dims rand_seed =
      [Tok.i32 (X.length : Int), Tok.i32 (k : Int), Tok.f64 theta,
        Tok.f64 perplexity, Tok.i32 no_dims]
      ++ (X.map (fun s => s.map Tok.f64)).flatten
      ++ (if rand_seed ≠ EMPTY_SEED then [Tok.i32 rand_seed] else []) ∧
    (∀ s ∈ X, (s.map Tok.f64).length = k) ∧
    calcsizeNative headerFmt = packedSize headerFmt ∧
    packedSize headerFmt = 28 := by
  refine ⟨?_, ?_, by decide, by decide⟩
  · cases X with
    | nil => exact absurd rfl hX
    | cons r t =>
      have hr : r.length = k := hk r (by simp)
      simp [encodeStream, hr]
  · intro s hs
    rw [List.length_map]
    exact hk s hs

/-- Witness for C2: a one-sample, two-column matrix with a non-default seed. -/
theorem encoder_layout_witness :
    encodeStream [[(1 : ℚ), 2]] (1 / 2) 30 2 7 =
      [Tok.i32 1, Tok.i32 2, Tok.f64 (1 / 2), Tok.f64 30, Tok.i32 2]
      ++ ([[(1 : ℚ), 2]].map (fun s => s.map Tok.f64)).flatten
      ++ [Tok.i32 7] ∧
    (∀ s ∈ [[(1 : ℚ), 2]], (s.map Tok.f64).length = 2) ∧
    calcsizeNative headerFmt = packedSize headerFmt ∧
    packedSize headerFmt = 28 := by
  have h := encoder_layout [[(1 : ℚ), 2]] 2 (1 / 2) 30 2 7
    (by decide) (by decide)
  simpa using h

/-- C9 counterexample: a caller who explicitly supplies the seed value `1`
gets no Seed Record — the stream ends with the data record and is identical
to the stream for the default seed, so the seed parameter is not
sentinel-free. -/
theorem seed_one_never_recorded :
    encodeStream [[(2 : ℚ)]] (1 / 2) 50 2 1 =
      [Tok.i32 1, Tok.i32 1, Tok.f64 (1 / 2), Tok.f64 50, Tok.i32 2,
        Tok.f64 2] ∧
    encodeStream [[(2 : ℚ)]] (1 / 2) 50 2 1 =
      encodeStream [[(2 : ℚ)]] (1 / 2) 50 2 EMPTY_SEED :=
  ⟨rfl, rfl⟩

/-- C9 (amended): the Seed Record — a single int32 holding the requested
seed — is appended after the data records iff the requested seed differs
from the sentinel `EMPTY_SEED = 1`; a requested seed of `1` is
indistinguishable from the default and is never recorded. -/
theorem seed_record_iff_nondefault (X : List (List ℚ))
    (theta perplexity : ℚ) (no_dims rand_seed : Int) :
    encodeStream X theta perplexity no_dims rand_seed =
      encodeStream X theta perplexity no_dims EMPTY_SEED
        ++ (if rand_seed ≠ EMPTY_SEED then [Tok.i32 rand_seed] else []) := by
  simp [encodeStream]

end FastTsne

namespace FastTsne

/-- Unfolding of fastTsne on a nonempty input: the with block always runs
tmpExit after the body. -/
theorem fastTsne_eq (X : List (List ℚ)) (initial_dims : Nat) (no_dims : Int)
    (perplexity theta : ℚ) (rand_seed : Int) (verbose : Bool)
    (eig_val : List ℚ) (eig_vec : List (List ℚ)) (engine : Engine)
    (hX : X ≠ []) :
    fastTsne X initial_dims no_dims perplexity theta rand_seed verbose
        eig_val eig_vec engine =
      ⟨if engine.returncode ≠ 0 then
          Except.error (Err.engineFailed (assertMsg verbose))
        else
          match decodeResult engine.result with
          | none => Except.error Err.protocolError
          | some out => Except.ok out,
        center X,
        encodeStream (pcaStage X initial_dims eig_val eig_vec) theta
          perplexity no_dims rand_seed,
        ⟨false, true⟩⟩ := by
  unfold fastTsne withTmpDir tmpEnter tmpExit
  rw [if_neg hX]

/-- C3 counterexample: a 2-sample input whose engine output declares
`result_count = 1` is decoded without any error — the pipeline yields the
single declared vector instead of raising a protocol-violation error. -/
theorem mismatched_result_count_not_detected :
    (fastTsne [[(1 : ℚ)], [(-1 : ℚ)]] 1 2 50 (1 / 2) 1 true [2] [[1]]
      ⟨0, mkResultStream 1 1 [[(42 : ℚ)]] [0] []⟩).out =
      Except.ok [[(42 : ℚ)]] ∧
    ([[(1 : ℚ)], [(-1 : ℚ)]] : List (List ℚ)).length = 2 ∧
    ([[(42 : ℚ)]] : List (List ℚ)).length = 1 := by
  refine ⟨?_, rfl, rfl⟩
  rw [fastTsne_eq _ _ _ _ _ _ _ _ _ _ (by decide)]
  rfl

/-- C3 (amended): the pipeline performs no `result_count` validation.  When
the engine exits 0 and its output stream is framed per its own header count
`m`, the pipeline succeeds and yields exactly `m` vectors — whether or not
`m` equals the input sample count. -/
theorem pipeline_yields_declared_count (X : List (List ℚ))
    (initial_dims : Nat) (no_dims : Int) (perplexity theta : ℚ)
    (rand_seed : Int) (verbose : Bool) (eig_val : List ℚ)
    (eig_vec : List (List ℚ)) (engine : Engine) (m k : Nat)
    (vecs : List (List ℚ)) (lms : List Int) (extra : List Tok)
    (hX : X ≠ []) (hrc : engine.returncode = 0)
    (hres : engine.result = mkResultStream m k vecs lms extra)
    (hv : vecs.length = m) (hl : lms.length = m)
    (hk : ∀ v ∈ vecs, v.length = k) :
    ∃ out, (fastTsne X initial_dims no_dims perplexity theta rand_seed
        verbose eig_val eig_vec engine).out = Except.ok out ∧
      out.length = m := by
  refine ⟨(List.insertionSort pairR (List.zip lms vecs)).map Prod.snd, ?_, ?_⟩
  · rw [fastTsne_eq _ _ _ _ _ _ _ _ _ _ hX]
    simp [hrc, hres, decodeResult_mk m k vecs lms extra hv hl hk]
  · rw [List.length_map, (List.perm_insertionSort pairR _).length_eq,
      List.length_zip, hv, hl, min_self]

/-- Witness for amended C3: the engine declares one result for a 2-sample
input; the pipeline yields one vector. -/
theorem pipeline_yields_declared_count_witness :
    ∃ out, (fastTsne [[(1 : ℚ)], [(-1 : ℚ)]] 1 2 50 (1 / 2) 1 false [2] [[1]]
      ⟨0, mkResultStream 1 1 [[(42 : ℚ)]] [0] []⟩).out = Except.ok out ∧
      out.length = 1 :=
  pipeline_yields_declared_count [[(1 : ℚ)], [(-1 : ℚ)]] 1 2 50 (1 / 2) 1
    false [2] [[1]] ⟨0, mkResultStream 1 1 [[(42 : ℚ)]] [0] []⟩ 1 1
    [[(42 : ℚ)]] [0] [] (by decide) rfl rfl rfl rfl (by decide)

/-- C5 counterexample: with verbose mode already on, a non-zero engine exit
raises the fatal error, but its message does not mention that verbose mode
should be enabled (the hint is emitted only when verbose is off). -/
theorem engine_failure_message_counterexample :
    (fastTsne [[(1 : ℚ)], [(-1 : ℚ)]] 1 2 50 (1 / 2) 1 true [2] [[1]]
      ⟨1, []⟩).out = Except.error (Err.engineFailed (assertMsg true)) ∧
    ¬ mentionsVerbose (assertMsg true) := by
  refine ⟨?_, by decide⟩
  rw [fastTsne_eq _ _ _ _ _ _ _ _ _ _ (by decide)]
  rfl

/-- C5 (amended): a non-zero engine exit status is fatal: the pipeline
raises the assertion error before yielding any result vector, and its
message recommends enabling verbose mode exactly when verbose mode is off
(when verbose is already on, it refers to the engine output only). -/
theorem engine_failure_is_fatal (X : List (List ℚ)) (initial_dims : Nat)
    (no_dims : Int) (perplexity theta : ℚ) (rand_seed : Int)
    (verbose : Bool) (eig_val : List ℚ) (eig_vec : List (List ℚ))
    (engine : Engine) (hX : X ≠ []) (hrc : engine.returncode ≠ 0) :
    (fastTsne X initial_dims no_dims perplexity theta rand_seed verbose
        eig_val eig_vec engine).out =
      Except.error (Err.engineFailed (assertMsg verbose)) ∧
    (mentionsVerbose (assertMsg verbose) ↔ verbose = false) := by
  constructor
  · rw [fastTsne_eq _ _ _ _ _ _ _ _ _ _ hX]
    simp [hrc]
  · cases verbose
    · exact iff_of_true (by decide) rfl
    · exact iff_of_false (by decide) (by simp)

/-- Witness for amended C5: verbose off, engine exiting 3. -/
theorem engine_failure_is_fatal_witness :
    (fastTsne [[(1 : ℚ)]] 1 2 50 (1 / 2) 1 false [] [] ⟨3, []⟩).out =
      Except.error (Err.engineFailed (assertMsg false)) ∧
    (mentionsVerbose (assertMsg false) ↔ false = false) :=
  engine_failure_is_fatal [[(1 : ℚ)]] 1 2 50 (1 / 2) 1 false [] [] ⟨3, []⟩
    (by decide) (by decide)

/-- C6: on every modelled exit path of the pipeline — normal completion,
engine failure, or a decoding error — a created scoped working directory no
longer exists when `fast_tsne` returns: `TmpDir.__exit__` runs `rmtree`
unconditionally. -/
theorem tmpdir_removed (X : List (List ℚ)) (initial_dims : Nat)
    (no_dims : Int) (perplexity theta : ℚ) (rand_seed : Int)
    (verbose : Bool) (eig_val : List ℚ) (eig_vec : List (List ℚ))
    (engine : Engine)
    (_created : (fastTsne X initial_dims no_dims perplexity theta rand_seed
        verbose eig_val eig_vec engine).fs.everCreated = true) :
    (fastTsne X initial_dims no_dims perplexity theta rand_seed verbose
        eig_val eig_vec engine).fs.tmpExists = false := by
  by_cases hX : X = []
  · unfold fastTsne
    rw [if_pos hX]
  · rw [fastTsne_eq _ _ _ _ _ _ _ _ _ _ hX]

/-- Witness for C6: a run that created the directory (engine failing) ends
with the directory removed. -/
theorem tmpdir_removed_witness :
    (fastTsne [[(1 : ℚ)]] 1 2 50 (1 / 2) 1 false [] [] ⟨1, []⟩).fs.everCreated
      = true ∧
    (fastTsne [[(1 : ℚ)]] 1 2 50 (1 / 2) 1 false [] [] ⟨1, []⟩).fs.tmpExists
      = false := by
  constructor
  · rw [fastTsne_eq _ _ _ _ _ _ _ _ _ _ (by decide)]
  · exact tmpdir_removed _ _ _ _ _ _ _ _ _ _
      (by rw [fastTsne_eq _ _ _ _ _ _ _ _ _ _ (by decide)])

/-- C8 counterexample: after the call the array of the caller holds the centered
data, not the original: `X -= np.mean(X, axis=0)` mutates it in place. -/
theorem caller_matrix_mutated :
    (fastTsne [[(1 : ℚ), 2], [3, 4]] 2 2 50 (1 / 2) 1 true [1, 0]
      [[1, 0], [0, 1]] ⟨0, []⟩).callerX = [[(-1 : ℚ), -1], [1, 1]] ∧
    ([[(-1 : ℚ), -1], [1, 1]] : List (List ℚ)) ≠ [[(1 : ℚ), 2], [3, 4]] := by
  constructor
  · rw [fastTsne_eq _ _ _ _ _ _ _ _ _ _ (by decide)]
    show center [[(1 : ℚ), 2], [3, 4]] = [[(-1 : ℚ), -1], [1, 1]]
    norm_num [center, colMean, getCol, numCols, List.range_succ]
  · norm_num

/-- C8 (amended): the matrix of the caller is not left unchanged: on every run
with a nonempty input it is mutated in place by the centering step and
afterwards holds the column-mean-centered data (the later projection
rebinds a local name only and does not write to it). -/
theorem caller_matrix_centered_in_place (X : List (List ℚ))
    (initial_dims : Nat) (no_dims : Int) (perplexity theta : ℚ)
    (rand_seed : Int) (verbose : Bool) (eig_val : List ℚ)
    (eig_vec : List (List ℚ)) (engine : Engine) (hX : X ≠ []) :
    (fastTsne X initial_dims no_dims perplexity theta rand_seed verbose
        eig_val eig_vec engine).callerX = center X := by
  rw [fastTsne_eq _ _ _ _ _ _ _ _ _ _ hX]

/-- Witness for amended C8. -/
theorem caller_matrix_centered_in_place_witness :
    (fastTsne [[(1 : ℚ), 2], [3, 4]] 2 2 50 (1 / 2) 1 false [1, 0]
      [[1, 0], [0, 1]] ⟨0, []⟩).callerX = center [[(1 : ℚ), 2], [3, 4]] :=
  caller_matrix_centered_in_place [[(1 : ℚ), 2], [3, 4]] 2 2 50 (1 / 2) 1
    false [1, 0] [[1, 0], [0, 1]] ⟨0, []⟩ (by decide)

end FastTsne
